import Mathlib

/-!
Verification of the ACC CAN test-suite core (frame decoding and the five
violation checks) against its specification.

The embedding translates `parse_log.py` and `test_cases.py` into Lean:
decoded samples become a list of `Sample` records, each check becomes a
total function on that list, timestamps and physical values are rationals
(the Python floats carry exact decimal values in every concrete case the
claims mention), and the formatted human-readable message strings are kept
as fixed texts without the interpolated counts, since no claim refers to
them.  The bit-level signal codec is delegated by the source to the
`cantools` library, which is not part of the repository; it is modelled
from the specification's explicit bit-extraction algorithm (section 4.2)
and marked as such below.
-/

/-- Tagged physical value of a decoded sample: a numeric value, the
explicit "unavailable" marker (Python `None`), or an error text. -/
inductive Value where
  | num (q : ℚ)
  | unavailable
  | text (s : String)
deriving DecidableEq

/-- Returns true exactly on numeric values. -/
def Value.isNum : Value → Bool
  | .num _ => true
  | _ => false

/-- The numeric content of a value (0 on non-numeric values; every use is
guarded so that non-numeric values never reach it). -/
def valNum : Value → ℚ
  | .num q => q
  | _ => 0

/-- The comparison `value > threshold` as performed on a decoded-value
column; non-numeric values compare false. -/
def valGt (v : Value) (threshold : ℚ) : Bool :=
  match v with
  | .num q => decide (threshold < q)
  | _ => false

/-- One row of the decoded-signals DataFrame produced by
`decode_signals` (src/parse_log.py): timestamp, message name, frame id,
signal name, value, raw payload bytes. -/
structure Sample where
  timestamp : ℚ
  message_name : String
  message_id : Nat
  signal_name : String
  value : Value
  raw_data : List Nat
deriving DecidableEq

/-- The `TestResult` dataclass of src/test_cases.py, generic over the
check-specific violation-record schema. -/
structure TestResult (α : Type) where
  name : String
  passed : Bool
  message : String
  details : List α
  timestamps : List ℚ
deriving DecidableEq

/-- Violation record of the overspeed check: timestamp, speed, threshold,
excess. -/
structure OverDetail where
  timestamp : ℚ
  speed : ℚ
  threshold : ℚ
  excess : ℚ
deriving DecidableEq

/-- The function check_overspeed from src/test_cases.py: select the Speed series,
flag every sample strictly above the threshold. -/
def check_overspeed (df : List Sample) (threshold : ℚ) : TestResult OverDetail :=
  if df = [] then
    ⟨"Overspeed Detection", false, "No data available for analysis", [], []⟩
  else
    let speed_df := df.filter (fun s => s.signal_name == "Speed")
    if speed_df = [] then
      ⟨"Overspeed Detection", false, "No speed signal data found in log", [], []⟩
    else
      let violations := speed_df.filter (fun s => valGt s.value threshold)
      if violations = [] then
        ⟨"Overspeed Detection", true, "No overspeed conditions detected", [], []⟩
      else
        ⟨"Overspeed Detection", false, "Overspeed detected",
          violations.map (fun s =>
            ⟨s.timestamp, valNum s.value, threshold, valNum s.value - threshold⟩),
          violations.map (fun s => s.timestamp)⟩

/-- The overspeed example input of the claim: Speed values 50, 150, 90 at
times 0, 1, 2. -/
def dfOverspeedEx : List Sample :=
  [⟨0, "VehicleSpeed", 257, "Speed", .num 50, []⟩,
   ⟨1, "VehicleSpeed", 257, "Speed", .num 150, []⟩,
   ⟨2, "VehicleSpeed", 257, "Speed", .num 90, []⟩]

/-- Violation record of the timeout check: gap start, gap end, gap
duration, threshold. -/
structure GapDetail where
  start_time : ℚ
  end_time : ℚ
  gap_duration : ℚ
  threshold : ℚ
deriving DecidableEq

/-- Insertion of an element into a list that is treated as sorted by the
key `key`. -/
def insertLe {α : Type} (key : α → ℚ) (x : α) : List α → List α
  | [] => [x]
  | y :: ys => if key x ≤ key y then x :: y :: ys else y :: insertLe key x ys

/-- Ascending insertion sort by the key `key`; embeds the sorting of a
DataFrame by its timestamp column. -/
def sortLe {α : Type} (key : α → ℚ) (l : List α) : List α :=
  l.foldr (insertLe key) []

/-- The message-name scoping of `check_timeout`: keep only rows of the
given message, or all rows when no filter is given. -/
def msgScope (df : List Sample) (message_name : Option String) : List Sample :=
  match message_name with
  | some m => df.filter (fun s => s.message_name == m)
  | none => df

/-- Consecutive pairs of a list, in order: `[a, b, c] ↦ [(a,b), (b,c)]`. -/
def consecPairs : List ℚ → List (ℚ × ℚ)
  | a :: b :: rest => (a, b) :: consecPairs (b :: rest)
  | _ => []

/-- The function check_timeout from src/test_cases.py: sort the distinct in-scope
timestamps and flag every consecutive gap strictly above the timeout. -/
def check_timeout (df : List Sample) (timeout_seconds : ℚ)
    (message_name : Option String) : TestResult GapDetail :=
  if df = [] then
    ⟨"Message Timeout Detection", false, "No data available for analysis", [], []⟩
  else
    let msg_df := msgScope df message_name
    if msg_df = [] then
      ⟨"Message Timeout Detection", false, "No message data found in log", [], []⟩
    else
      let timestamps := sortLe id (msg_df.map (fun s => s.timestamp)).dedup
      if timestamps.length < 2 then
        ⟨"Message Timeout Detection", true, "Insufficient data to check timeouts", [], []⟩
      else
        let violations :=
          (consecPairs timestamps).filter (fun p => decide (timeout_seconds < p.2 - p.1))
        if violations = [] then
          ⟨"Message Timeout Detection", true, "No message timeouts detected", [], []⟩
        else
          ⟨"Message Timeout Detection", false, "Message timeout detected",
            violations.map (fun p => ⟨p.1, p.2, p.2 - p.1, timeout_seconds⟩),
            violations.map (fun p => p.1)⟩

/-- The timeout example input of the claim: samples at times 0, 1, 6 and
8.5. -/
def dfTimeoutEx : List Sample :=
  [⟨0, "VehicleSpeed", 257, "Speed", .num 50, []⟩,
   ⟨1, "VehicleSpeed", 257, "Speed", .num 51, []⟩,
   ⟨6, "VehicleSpeed", 257, "Speed", .num 52, []⟩,
   ⟨17/2, "VehicleSpeed", 257, "Speed", .num 53, []⟩]

/-- A two-sample input with a single distinct timestamp. -/
def dfOneStamp : List Sample :=
  [⟨3, "VehicleSpeed", 257, "Speed", .num 50, []⟩,
   ⟨3, "BrakeSystem", 258, "BrakePressure", .num 40, []⟩]

/-- Violation record of the emergency-stop check: timestamp, brake
pressure, deceleration, and both thresholds. -/
structure EmergDetail where
  timestamp : ℚ
  brake_pressure : ℚ
  deceleration : ℚ
  brake_threshold : ℚ
  decel_threshold : ℚ
deriving DecidableEq

/-- Decorate each (timestamp, value) pair after the given predecessor with
its deceleration estimate `-(Δvalue)/(Δtimestamp)` from that predecessor. -/
def decelFrom : ℚ × ℚ → List (ℚ × ℚ) → List (ℚ × ℚ × Option ℚ)
  | _, [] => []
  | prev, y :: rest =>
      (y.1, y.2, some (-(y.2 - prev.2) / (y.1 - prev.1))) :: decelFrom y rest

/-- Decorate a time-sorted series with per-sample deceleration estimates;
the first sample has no estimate (the `diff` of the source leaves it NaN). -/
def withDecel : List (ℚ × ℚ) → List (ℚ × ℚ × Option ℚ)
  | [] => []
  | x :: rest => (x.1, x.2, none) :: decelFrom x rest

/-- Maximum of a list of rationals, `none` on the empty list (the `max`
of a column whose defined entries are exactly this list). -/
def listMax : List ℚ → Option ℚ
  | [] => none
  | x :: xs =>
      match listMax xs with
      | none => some x
      | some m => some (max x m)

/-- The Speed rows of the input, restricted to (timestamp, value). -/
def speedPairs (df : List Sample) : List (ℚ × ℚ) :=
  (df.filter (fun s => s.signal_name == "Speed")).map
    (fun s => (s.timestamp, valNum s.value))

/-- The BrakePressure rows of the input, restricted to
(timestamp, value). -/
def brakePairs (df : List Sample) : List (ℚ × ℚ) :=
  (df.filter (fun s => s.signal_name == "BrakePressure")).map
    (fun s => (s.timestamp, valNum s.value))

/-- The time-sorted Speed series decorated with deceleration estimates. -/
def speedDecel (df : List Sample) : List (ℚ × ℚ × Option ℚ) :=
  withDecel (sortLe (fun p => p.1) (speedPairs df))

/-- The time-sorted BrakePressure samples exceeding the brake threshold. -/
def highBrake (df : List Sample) (brake_threshold : ℚ) : List (ℚ × ℚ) :=
  (sortLe (fun p => p.1) (brakePairs df)).filter
    (fun b => decide (brake_threshold < b.2))

/-- The speed samples within the fixed ±0.2-second window of time `t`. -/
def nearbySpeed (speedD : List (ℚ × ℚ × Option ℚ)) (t : ℚ) :
    List (ℚ × ℚ × Option ℚ) :=
  speedD.filter (fun x => decide (t - 1/5 ≤ x.1) && decide (x.1 ≤ t + 1/5))

/-- The maximum deceleration estimate among the speed samples within
±0.2 s of time `t`; `none` when no sample in the window has an estimate. -/
def maxDecelNear (speedD : List (ℚ × ℚ × Option ℚ)) (t : ℚ) : Option ℚ :=
  listMax ((nearbySpeed speedD t).filterMap (fun x => x.2.2))

/-- The violation produced by one high-brake-pressure sample of
`check_emergency_stop`, or `none` when the sample is skipped: the window
must be non-empty, hold a defined maximum deceleration estimate (the
`notna` guard of the source) and that maximum must exceed the
deceleration threshold. -/
def brakeViolation (speedD : List (ℚ × ℚ × Option ℚ))
    (brake_threshold decel_threshold : ℚ) (b : ℚ × ℚ) : Option EmergDetail :=
  let nearby := nearbySpeed speedD b.1
  if nearby = [] then none
  else
    match listMax (nearby.filterMap (fun x => x.2.2)) with
    | none => none
    | some m =>
        if decel_threshold < m then
          some ⟨b.1, b.2, m, brake_threshold, decel_threshold⟩
        else none

/-- The function check_emergency_stop from src/test_cases.py: correlate
high-brake-pressure samples with the maximum deceleration estimate of the
speed samples within ±0.2 s. -/
def check_emergency_stop (df : List Sample)
    (brake_threshold decel_threshold : ℚ) : TestResult EmergDetail :=
  if df.filter (fun s => s.signal_name == "Speed") = [] ∨
       df.filter (fun s => s.signal_name == "BrakePressure") = [] then
    ⟨"Emergency Stop Detection", true,
      "Insufficient speed or brake data for analysis", [], []⟩
  else
    let violations :=
      (highBrake df brake_threshold).filterMap
        (brakeViolation (speedDecel df) brake_threshold decel_threshold)
    if violations = [] then
      ⟨"Emergency Stop Detection", true, "No emergency stop events detected", [], []⟩
    else
      ⟨"Emergency Stop Detection", false, "Emergency stop detected",
        violations, violations.map (fun v => v.timestamp)⟩

/-- The emergency-stop example input of the claim: Speed 130 at t=0 and
90 at t=0.1, BrakePressure 210 at t=0.1. -/
def dfEmergEx : List Sample :=
  [⟨0, "VehicleSpeed", 257, "Speed", .num 130, []⟩,
   ⟨1/10, "VehicleSpeed", 257, "Speed", .num 90, []⟩,
   ⟨1/10, "BrakeSystem", 258, "BrakePressure", .num 210, []⟩]

/-- A signal declaration of the database: name and optional physical
minimum/maximum (the source stores `-inf`/`inf` for an absent bound, so
that the corresponding comparison is always false; an absent bound is
modelled as `none` with the comparison defined as false). -/
structure SignalDef where
  name : String
  minimum : Option ℚ
  maximum : Option ℚ
deriving DecidableEq

/-- A message declaration of the database: frame id, name, signals. -/
structure MessageDef where
  frame_id : Nat
  name : String
  signals : List SignalDef
deriving DecidableEq

/-- The bounds-lookup entry built by `check_signal_bounds` for one
signal: min, max and owning message name. -/
structure BoundsEntry where
  min : Option ℚ
  max : Option ℚ
  message : String
deriving DecidableEq

/-- All (signal name, bounds entry) pairs of the database, in declaration
order. -/
def boundsList (db : List MessageDef) : List (String × BoundsEntry) :=
  db.flatMap (fun m => m.signals.map (fun sg => (sg.name, ⟨sg.minimum, sg.maximum, m.name⟩)))

/-- The `signal_bounds` dictionary of `check_signal_bounds`: the entry of
the signal, where a signal declared several times keeps the last
declaration (dictionary overwrite). -/
def signalBounds (db : List MessageDef) (signal_name : String) : Option BoundsEntry :=
  ((boundsList db).reverse.find? (fun p => p.1 == signal_name)).map (fun p => p.2)

/-- The comparison `value < min`, false when no minimum is declared
(`value < -inf`). -/
def belowMin (b : BoundsEntry) (q : ℚ) : Bool :=
  match b.min with
  | some m => decide (q < m)
  | none => false

/-- The comparison `value > max`, false when no maximum is declared
(`value > inf`). -/
def aboveMax (b : BoundsEntry) (q : ℚ) : Bool :=
  match b.max with
  | some m => decide (m < q)
  | none => false

/-- Violation record of the bounds check: timestamp, signal, value, the
declared bounds and the owning message. -/
structure BoundsDetail where
  timestamp : ℚ
  signal : String
  value : ℚ
  min : Option ℚ
  max : Option ℚ
  message : String
deriving DecidableEq

/-- The violation produced by one row of `check_signal_bounds`, or
`none` when the row is skipped: signals without a database entry and
non-numeric or unavailable values are skipped, and a numeric value is
flagged exactly when it falls outside the declared bounds. -/
def boundsViolation (db : List MessageDef) (s : Sample) : Option BoundsDetail :=
  match signalBounds db s.signal_name with
  | none => none
  | some b =>
      match s.value with
      | .num q =>
          if belowMin b q || aboveMax b q then
            some ⟨s.timestamp, s.signal_name, q, b.min, b.max, b.message⟩
          else none
      | _ => none

/-- The function check_signal_bounds from src/test_cases.py: flag every numeric
sample outside its declared bounds; the timestamp list of the result is
de-duplicated (`list(set(...))` of the source, whose arbitrary set order
is modelled by first-occurrence de-duplication; no claim depends on the
order). -/
def check_signal_bounds (df : List Sample) (db : List MessageDef) :
    TestResult BoundsDetail :=
  let violations := df.filterMap (boundsViolation db)
  if violations = [] then
    ⟨"Signal Bounds Validation", true,
      "All signal values within DBC-defined bounds", [], []⟩
  else
    ⟨"Signal Bounds Validation", false, "Out-of-bounds violations",
      violations, (violations.map (fun v => v.timestamp)).dedup⟩

/-- Python `int()` on a rational: truncation toward zero. -/
def pyInt (q : ℚ) : ℤ :=
  if 0 ≤ q then ⌊q⌋ else ⌈q⌉

/-- Violation record of the checksum check: timestamp, truncated pressure,
truncated checksum, expected checksum. -/
structure ChecksumDetail where
  timestamp : ℚ
  pressure : ℤ
  checksum : ℤ
  expected : ℤ
deriving DecidableEq

/-- The BrakePressure rows of the input as (timestamp, value). -/
def pressureRows (df : List Sample) : List (ℚ × Value) :=
  (df.filter (fun s => s.signal_name == "BrakePressure")).map
    (fun s => (s.timestamp, s.value))

/-- The BrakeChecksum rows of the input as (timestamp, value). -/
def checksumRows (df : List Sample) : List (ℚ × Value) :=
  (df.filter (fun s => s.signal_name == "BrakeChecksum")).map
    (fun s => (s.timestamp, s.value))

/-- The inner join of pressure and checksum rows on exactly equal
timestamps, in left-key order (`pd.merge(..., how="inner")`):
(timestamp, pressure value, checksum value). -/
def mergedRows (df : List Sample) : List (ℚ × Value × Value) :=
  (pressureRows df).flatMap (fun p =>
    ((checksumRows df).filter (fun c => decide (c.1 = p.1))).map
      (fun c => (p.1, p.2, c.2)))

/-- The violation produced by one joined row of `check_checksum`, or
`none` when the truncated checksum equals the truncated pressure (the
expected checksum is the pressure value itself). -/
def checksumViolation (r : ℚ × Value × Value) : Option ChecksumDetail :=
  let pressure := pyInt (valNum r.2.1)
  let checksum := pyInt (valNum r.2.2)
  if checksum ≠ pressure then some ⟨r.1, pressure, checksum, pressure⟩ else none

/-- The function check_checksum from src/test_cases.py: join BrakePressure with
BrakeChecksum on exact timestamps and flag every joined pair whose
`int()`-truncated checksum differs from the `int()`-truncated pressure. -/
def check_checksum (df : List Sample) : TestResult ChecksumDetail :=
  if pressureRows df = [] ∨ checksumRows df = [] then
    ⟨"Checksum Validation", true,
      "No brake checksum data available for validation", [], []⟩
  else
    let violations := (mergedRows df).filterMap checksumViolation
    if violations = [] then
      ⟨"Checksum Validation", true, "All brake message checksums valid", [], []⟩
    else
      ⟨"Checksum Validation", false, "Checksum errors detected",
        violations, violations.map (fun v => v.timestamp)⟩

/-- The passing checksum example of the claim: pressure 150 and checksum
150 at t=0. -/
def dfChecksumPass : List Sample :=
  [⟨0, "BrakeSystem", 258, "BrakePressure", .num 150, []⟩,
   ⟨0, "BrakeSystem", 258, "BrakeChecksum", .num 150, []⟩]

/-- The failing checksum example of the claim: pressure 150 and checksum
99 at t=0. -/
def dfChecksumFail : List Sample :=
  [⟨0, "BrakeSystem", 258, "BrakePressure", .num 150, []⟩,
   ⟨0, "BrakeSystem", 258, "BrakeChecksum", .num 99, []⟩]

/-- A checksum input with a non-integer pressure 150.5 paired with
checksum 150 at the same timestamp. -/
def dfChecksumTrunc : List Sample :=
  [⟨0, "BrakeSystem", 258, "BrakePressure", .num (301/2), []⟩,
   ⟨0, "BrakeSystem", 258, "BrakeChecksum", .num 150, []⟩]

/-- A raw CAN frame handed to `decode_signals`: timestamp, frame id and
payload bytes. -/
structure RawFrame where
  timestamp : ℚ
  id : Nat
  data : List Nat
deriving DecidableEq

/-- The message object the external database returns for a known frame
id: its name and its decode function, which either yields the decoded
(signal name, value) pairs or fails with an error text (any exception of
the backing library other than the unknown-id lookup failure). -/
structure DbMessage where
  name : String
  decode : List Nat → Except String (List (String × Value))

/-- The external database handed to `decode_signals`: frame-id lookup
returning the message object, or nothing for an unknown id (the
`KeyError` of the source). -/
structure Database where
  get_message_by_frame_id : Nat → Option DbMessage

/-- The decoded samples one frame contributes in `decode_signals`: one
UNKNOWN sample when the id has no message, one ERROR sample when the
decode fails, one sample per decoded signal otherwise. -/
def frameSamples (dbc : Database) (msg : RawFrame) : List Sample :=
  match dbc.get_message_by_frame_id msg.id with
  | none => [⟨msg.timestamp, "UNKNOWN", msg.id, "raw", .unavailable, msg.data⟩]
  | some message =>
      match message.decode msg.data with
      | .error e =>
          [⟨msg.timestamp, "ERROR", msg.id, "decode_error", .text e, msg.data⟩]
      | .ok decoded_signals =>
          decoded_signals.map (fun p =>
            ⟨msg.timestamp, message.name, msg.id, p.1, p.2, msg.data⟩)

/-- The function decode_signals from src/parse_log.py: run every frame through the
decoder, appending the resulting rows to the accumulated list, exactly as
the source appends to `decoded_data` inside its loop. -/
def decode_signals (messages : List RawFrame) (dbc : Database) : List Sample :=
  messages.foldl (fun decoded_data msg => decoded_data ++ frameSamples dbc msg) []

/-- Modelled from the spec: byte order of a signal (section 3); the
bit-level codec itself lives in the external `cantools` library and is
not part of the repository. -/
inductive ByteOrder where
  | little
  | big
deriving DecidableEq

/-- Modelled from the spec: a SignalSpec (section 3) — start bit, bit
length, byte order, signedness, scale factor, offset; the repository
delegates this layout description to the external database library. -/
structure SignalSpec where
  start_bit : Nat
  bit_length : Nat
  byte_order : ByteOrder
  signed : Bool
  scale : ℚ
  offset : ℚ

/-- The `k` low-order bytes of `n`, low byte first. -/
def bytesFromNat : Nat → Nat → List Nat
  | 0, _ => []
  | k + 1, n => n % 256 :: bytesFromNat k (n / 256)

/-- The natural number whose little-endian byte representation is the
given list. -/
def natFromBytesLE : List Nat → Nat
  | [] => 0
  | b :: bs => b + 256 * natFromBytesLE bs

/-- Modelled from the spec: the `bit_length`-bit two's-complement pattern
of a raw integer (section 4.2, "interpret as signed (two's-complement
over `bit_length` bits) or unsigned"). -/
def rawPattern (spec : SignalSpec) (r : ℤ) : Nat :=
  (r % ((2 : ℤ) ^ spec.bit_length)).toNat

/-- Modelled from the spec: the raw integer read from a
`bit_length`-bit pattern, two's-complement when the signal is signed,
plain otherwise (section 4.2). -/
def patternValue (spec : SignalSpec) (u : Nat) : ℤ :=
  if spec.signed then
    if u < 2 ^ (spec.bit_length - 1) then (u : ℤ)
    else (u : ℤ) - 2 ^ spec.bit_length
  else (u : ℤ)

/-- Modelled from the spec: the raw integer encoding a physical value,
the nearest integer to `(v - offset) / scale` (inverting
`physical = raw * scale + offset`, section 4.2, with rounding to the
nearest representable raw count). -/
def rawOf (spec : SignalSpec) (v : ℚ) : ℤ :=
  round ((v - spec.offset) / spec.scale)

/-- Modelled from the spec: build the 8-byte frame payload that encodes
the physical value `v` in the given signal — the raw pattern is placed at
`start_bit`, bits packed LSB-first starting at the low byte for
little-endian signals, MSB-first starting at the high byte for big-endian
signals (section 4.2); all other bits are zero (a frame built by encoding
one known value, section 6). -/
def encodeFrame (spec : SignalSpec) (v : ℚ) : List Nat :=
  let word := rawPattern spec (rawOf spec v) * 2 ^ spec.start_bit
  match spec.byte_order with
  | .little => bytesFromNat 8 word
  | .big => (bytesFromNat 8 word).reverse

/-- Modelled from the spec: the payload read as one 64-bit word in the
signal's byte order. -/
def payloadWord (spec : SignalSpec) (payload : List Nat) : Nat :=
  match spec.byte_order with
  | .little => natFromBytesLE payload
  | .big => natFromBytesLE payload.reverse

/-- Modelled from the spec: extract `bit_length` bits starting at
`start_bit` from the payload, honoring the declared byte order
(section 4.2). -/
def extractBits (spec : SignalSpec) (payload : List Nat) : Nat :=
  payloadWord spec payload / 2 ^ spec.start_bit % 2 ^ spec.bit_length

/-- Modelled from the spec: decode the physical value of a signal from a
frame payload — extract the bits, interpret per signedness, apply
`physical = raw * scale + offset` (section 4.2). -/
def decodePhys (spec : SignalSpec) (payload : List Nat) : ℚ :=
  (patternValue spec (extractBits spec payload) : ℚ) * spec.scale + spec.offset

/-- The smallest representable raw integer of a signal. -/
def rawLo (spec : SignalSpec) : ℤ :=
  if spec.signed then -(2 ^ (spec.bit_length - 1)) else 0

/-- The largest representable raw integer of a signal. -/
def rawHi (spec : SignalSpec) : ℤ :=
  if spec.signed then 2 ^ (spec.bit_length - 1) - 1 else 2 ^ spec.bit_length - 1

/-- The smallest in-range physical value of a signal (positive scale). -/
def physMin (spec : SignalSpec) : ℚ :=
  (rawLo spec : ℚ) * spec.scale + spec.offset

/-- The largest in-range physical value of a signal (positive scale). -/
def physMax (spec : SignalSpec) : ℚ :=
  (rawHi spec : ℚ) * spec.scale + spec.offset

/-- A well-formed SignalSpec: positive scale, at least one bit, and a bit
range that fits the 8-byte payload. -/
def SignalSpec.valid (spec : SignalSpec) : Prop :=
  0 < spec.scale ∧ 0 < spec.bit_length ∧ spec.start_bit + spec.bit_length ≤ 64

/-- The example signal database: a Speed signal bounded by [0, 120]. -/
def dbBoundsEx : List MessageDef :=
  [⟨257, "VehicleSpeed", [⟨"Speed", some 0, some 120⟩]⟩]

/-- A bounds-check input holding an out-of-range Speed value 130 at t=2
and an unavailable raw sample. -/
def dfBoundsEx : List Sample :=
  [⟨2, "VehicleSpeed", 257, "Speed", .num 130, []⟩,
   ⟨3, "UNKNOWN", 999, "raw", .unavailable, [1]⟩]

/-- The example external database of the ingestion model: id 257 decodes
to one Speed signal, id 258 always fails to decode, everything else is
unknown. -/
def dbcEx : Database :=
  ⟨fun i =>
    if i = 257 then some ⟨"VehicleSpeed", fun _ => .ok [("Speed", .num 50)]⟩
    else if i = 258 then some ⟨"BrakeSystem", fun _ => .error ("decode failed")⟩
    else none⟩

/-- An input holding only Speed samples (its BrakePressure series is
empty). -/
def dfSpeedOnly : List Sample :=
  [⟨0, "VehicleSpeed", 257, "Speed", .num 80, []⟩]

/-- The example signal spec of the codec round-trip: a signed big-endian
8-bit signal at start bit 4 with scale 0.5 and offset -10. -/
def specEx : SignalSpec :=
  ⟨4, 8, .big, true, 1/2, -10⟩

/-!  Helper lemmas, shared between the claim theorems.  -/

theorem insertLe_perm {α : Type} (key : α → ℚ) (x : α) (l : List α) :
    List.Perm (insertLe key x l) (x :: l) := by
  induction l with
  | nil => exact List.Perm.refl _
  | cons y ys ih =>
      by_cases h : key x ≤ key y
      · simp only [insertLe, if_pos h]
        exact List.Perm.refl _
      · simp only [insertLe, if_neg h]
        exact (ih.cons y).trans (List.Perm.swap x y ys)

theorem sortLe_perm {α : Type} (key : α → ℚ) (l : List α) :
    List.Perm (sortLe key l) l := by
  induction l with
  | nil => exact List.Perm.refl _
  | cons y ys ih =>
      have h1 : sortLe key (y :: ys) = insertLe key y (sortLe key ys) := rfl
      rw [h1]
      exact (insertLe_perm key y (sortLe key ys)).trans (ih.cons y)

theorem mem_sortLe {α : Type} (key : α → ℚ) (l : List α) (x : α) :
    x ∈ sortLe key l ↔ x ∈ l :=
  (sortLe_perm key l).mem_iff

theorem length_sortLe {α : Type} (key : α → ℚ) (l : List α) :
    (sortLe key l).length = l.length :=
  (sortLe_perm key l).length_eq

theorem foldl_append_eq_flatMap {α β : Type} (f : α → List β) (l : List α)
    (acc : List β) :
    l.foldl (fun a m => a ++ f m) acc = acc ++ l.flatMap f := by
  induction l generalizing acc with
  | nil => simp
  | cons x xs ih => simp [ih, List.append_assoc]

theorem listMax_nil_iff (l : List ℚ) : listMax l = none ↔ l = [] := by
  cases l with
  | nil => simp [listMax]
  | cons x xs =>
      simp only [listMax]
      cases listMax xs <;> simp

/-- Characterization of the per-brake-sample violation of
`check_emergency_stop`: it exists exactly when the window holds a defined
maximum deceleration estimate exceeding the threshold. -/
theorem brakeViolation_eq_some_iff (speedD : List (ℚ × ℚ × Option ℚ))
    (bt dt : ℚ) (b : ℚ × ℚ) (d : EmergDetail) :
    brakeViolation speedD bt dt b = some d ↔
      ∃ m, maxDecelNear speedD b.1 = some m ∧ dt < m ∧
        d = ⟨b.1, b.2, m, bt, dt⟩ := by
  unfold brakeViolation maxDecelNear
  by_cases h : nearbySpeed speedD b.1 = []
  · simp [h, listMax]
  · rw [if_neg h]
    cases hm : listMax ((nearbySpeed speedD b.1).filterMap (fun x => x.2.2)) with
    | none => simp
    | some m =>
        constructor
        · intro hd
          have hd2 : (if dt < m then
              some (⟨b.1, b.2, m, bt, dt⟩ : EmergDetail) else none) = some d := hd
          by_cases hdt : dt < m
          · rw [if_pos hdt] at hd2
            injection hd2 with hd2
            exact ⟨m, rfl, hdt, hd2.symm⟩
          · rw [if_neg hdt] at hd2
            cases hd2
        · rintro ⟨m', hm', hdt, hd⟩
          injection hm' with hm'
          subst hm'
          show (if dt < m then
              some (⟨b.1, b.2, m, bt, dt⟩ : EmergDetail) else none) = some d
          rw [hd, if_pos hdt]

/-- A skipped brake sample of `check_emergency_stop`: no violation when
the window is empty or holds no defined deceleration estimate. -/
theorem brakeViolation_skip (speedD : List (ℚ × ℚ × Option ℚ))
    (bt dt : ℚ) (b : ℚ × ℚ)
    (h : nearbySpeed speedD b.1 = [] ∨
      ∀ x ∈ nearbySpeed speedD b.1, x.2.2 = none) :
    brakeViolation speedD bt dt b = none := by
  unfold brakeViolation
  rcases h with h | h
  · simp [h]
  · by_cases hne : nearbySpeed speedD b.1 = []
    · simp [hne]
    · have : (nearbySpeed speedD b.1).filterMap (fun x => x.2.2) = [] :=
        List.filterMap_eq_nil_iff.mpr h
      simp [if_neg hne, this, listMax]

/-!  Claim C2 — timeout example.  The claimed input has two gaps above
the threshold (1→6 and 6→8.5), not one.  -/

/-- Claim C2 counterexample: on timestamps [0, 1, 6, 8.5] with timeout 2,
`check_timeout` records two violations (the 5-second gap from 1 to 6 and
the 2.5-second gap from 6 to 8.5), so "exactly one violation" fails. -/
theorem claim_C2_timeout_cx :
    ¬ ((check_timeout dfTimeoutEx 2 none).details.length = 1) := by
  norm_num [check_timeout, dfTimeoutEx, msgScope, sortLe, insertLe, consecPairs,
    List.filter, List.dedup]
  try simp
  try norm_num

/-- Claim C2 (amended): for the input whose sample timestamps are
[0, 1, 6, 8.5] with timeout 2, `check_timeout` fails with exactly two
violations: gap_duration 5 from 1 to 6, and gap_duration 2.5 from 6 to
8.5; the violation timestamps are the gap starts 1 and 6. -/
theorem claim_C2_timeout_amended :
    (check_timeout dfTimeoutEx 2 none).passed = false ∧
    (check_timeout dfTimeoutEx 2 none).details =
      [⟨1, 6, 5, 2⟩, ⟨6, 17/2, 5/2, 2⟩] ∧
    (check_timeout dfTimeoutEx 2 none).timestamps = [1, 6] := by
  refine ⟨?_, ?_, ?_⟩ <;>
  · norm_num [check_timeout, dfTimeoutEx, msgScope, sortLe, insertLe, consecPairs,
      List.filter, List.dedup]
    try simp
    try norm_num

/-!  Claim C7 — timeout passes on insufficient data.  The code fails (not
passes) on an empty input or an empty filtered scope, both of which have
fewer than two in-scope timestamps, so the universally stated claim is
false; it holds whenever the in-scope sample list is non-empty.  -/

/-- Claim C7 counterexample: the empty input has fewer than two distinct
in-scope timestamps, yet `check_timeout` fails on it ("No data available
for analysis") instead of passing. -/
theorem claim_C7_timeout_cx :
    ((msgScope ([] : List Sample) none).map (fun s => s.timestamp)).dedup.length < 2 ∧
    (check_timeout ([] : List Sample) 2 none).passed = false := by
  constructor <;> decide

/-- Claim C7 (amended): for every input and optional message-name filter
whose in-scope sample list is non-empty but carries fewer than two
distinct timestamps, `check_timeout` returns a passing result
(insufficient data is a pass, not a violation); when the input or the
filtered scope is empty, the check fails with a no-data message instead. -/
theorem claim_C7_timeout_insufficient :
    ∀ (df : List Sample) (timeout_seconds : ℚ) (mn : Option String),
      msgScope df mn ≠ [] →
      ((msgScope df mn).map (fun s => s.timestamp)).dedup.length < 2 →
      (check_timeout df timeout_seconds mn).passed = true := by
  intro df timeout_seconds mn h1 h2
  have hdf : ¬(df = []) := by
    intro h
    subst h
    apply h1
    cases mn <;> simp [msgScope]
  have hlen : (sortLe id ((msgScope df mn).map (fun s => s.timestamp)).dedup).length < 2 := by
    rw [length_sortLe]
    exact h2
  simp only [check_timeout]
  rw [if_neg hdf, if_neg h1, if_pos hlen]

/-- Witness for claim C7: a two-sample input sharing the single
timestamp 3 is in scope, has one distinct timestamp, and passes. -/
theorem claim_C7_timeout_insufficient_witness :
    msgScope dfOneStamp none ≠ [] ∧
    ((msgScope dfOneStamp none).map (fun s => s.timestamp)).dedup.length < 2 ∧
    (check_timeout dfOneStamp 2 none).passed = true :=
  ⟨by decide, by decide,
    claim_C7_timeout_insufficient dfOneStamp 2 none (by decide) (by decide)⟩

/-!  Claim C3 — overspeed.  -/

/-- Claim C3: for every input with a non-empty, numeric-valued Speed
series and every threshold, `check_overspeed` fails iff some Speed sample
strictly exceeds the threshold; the violation records list exactly the
exceeding samples with timestamp, value, threshold and excess; and on
Speed values 50, 150, 90 at times 0, 1, 2 with threshold 100 it fails
with exactly one violation at time 1, value 150, excess 50. -/
theorem claim_C3_overspeed :
    (∀ (df : List Sample) (threshold : ℚ),
      df.filter (fun s => s.signal_name == "Speed") ≠ [] →
      (∀ s ∈ df.filter (fun s => s.signal_name == "Speed"), s.value.isNum = true) →
      ((check_overspeed df threshold).passed = false ↔
        ∃ s ∈ df, s.signal_name = "Speed" ∧ threshold < valNum s.value) ∧
      (check_overspeed df threshold).details =
        ((df.filter (fun s => s.signal_name == "Speed")).filter
          (fun s => valGt s.value threshold)).map
          (fun s => ⟨s.timestamp, valNum s.value, threshold,
            valNum s.value - threshold⟩) ∧
      (check_overspeed df threshold).timestamps =
        ((df.filter (fun s => s.signal_name == "Speed")).filter
          (fun s => valGt s.value threshold)).map (fun s => s.timestamp)) ∧
    (check_overspeed dfOverspeedEx 100).passed = false ∧
    (check_overspeed dfOverspeedEx 100).details = [⟨1, 150, 100, 50⟩] ∧
    (check_overspeed dfOverspeedEx 100).timestamps = [1] := by
  refine ⟨?_, ?_, ?_, ?_⟩
  · intro df threshold h1 h2
    have hdf : ¬(df = []) := by
      intro h
      subst h
      exact h1 rfl
    have hval : ∀ s ∈ df.filter (fun s => s.signal_name == "Speed"),
        (valGt s.value threshold = true ↔ threshold < valNum s.value) := by
      intro s hs
      have hnum := h2 s hs
      cases hv : s.value with
      | num q => simp [valGt, valNum, hv]
      | unavailable => rw [hv] at hnum; cases hnum
      | text e => rw [hv] at hnum; cases hnum
    simp only [check_overspeed]
    rw [if_neg hdf, if_neg h1]
    by_cases hv : (df.filter (fun s => s.signal_name == "Speed")).filter
        (fun s => valGt s.value threshold) = []
    · rw [if_pos hv]
      refine ⟨?_, by simp [hv], by simp [hv]⟩
      constructor
      · intro h
        cases h
      · rintro ⟨s, hsmem, hsig, hlt⟩
        exfalso
        have hmem : s ∈ df.filter (fun s => s.signal_name == "Speed") :=
          List.mem_filter.mpr ⟨hsmem, by simp [hsig]⟩
        have : valGt s.value threshold = true := (hval s hmem).mpr hlt
        have : s ∈ (df.filter (fun s => s.signal_name == "Speed")).filter
            (fun s => valGt s.value threshold) := List.mem_filter.mpr ⟨hmem, this⟩
        rw [hv] at this
        cases this
    · rw [if_neg hv]
      refine ⟨?_, rfl, rfl⟩
      constructor
      · intro _
        obtain ⟨s, hs⟩ := List.exists_mem_of_ne_nil _ hv
        have hs1 := (List.mem_filter.mp hs).1
        have hs2 := (List.mem_filter.mp hs).2
        have hs3 := (List.mem_filter.mp hs1).1
        have hs4 := (List.mem_filter.mp hs1).2
        exact ⟨s, hs3, by simpa using hs4, (hval s hs1).mp hs2⟩
      · intro _
        rfl
  · decide
  · norm_num [check_overspeed, dfOverspeedEx, valGt, valNum, List.filter]
    try simp
    try norm_num
  · norm_num [check_overspeed, dfOverspeedEx, valGt, valNum, List.filter]
    try simp
    try norm_num

/-- Witness for claim C3: the example input has a non-empty numeric Speed
series, and the fails-iff equivalence holds on it at threshold 100. -/
theorem claim_C3_overspeed_witness :
    dfOverspeedEx.filter (fun s => s.signal_name == "Speed") ≠ [] ∧
    ((check_overspeed dfOverspeedEx 100).passed = false ↔
      ∃ s ∈ dfOverspeedEx, s.signal_name = "Speed" ∧ 100 < valNum s.value) :=
  ⟨by decide,
    (claim_C3_overspeed.1 dfOverspeedEx 100 (by decide) (by decide)).1⟩

/-!  Claim C10 — skipped brake events in the emergency-stop check.  -/

/-- Claim C10: in `check_emergency_stop`, a brake sample above the brake
threshold contributes no violation when no speed sample lies in its
±0.2 s window or when every speed sample there lacks a deceleration
estimate; if every high-brake sample is skipped this way, the check
passes. -/
theorem claim_C10_brake_skip :
    (∀ (speedD : List (ℚ × ℚ × Option ℚ)) (bt dt : ℚ) (b : ℚ × ℚ),
      (nearbySpeed speedD b.1 = [] ∨
        ∀ x ∈ nearbySpeed speedD b.1, x.2.2 = none) →
      brakeViolation speedD bt dt b = none) ∧
    (∀ (df : List Sample) (bt dt : ℚ),
      (∀ b ∈ highBrake df bt,
        nearbySpeed (speedDecel df) b.1 = [] ∨
        ∀ x ∈ nearbySpeed (speedDecel df) b.1, x.2.2 = none) →
      (check_emergency_stop df bt dt).passed = true) := by
  refine ⟨fun speedD bt dt b h => brakeViolation_skip speedD bt dt b h, ?_⟩
  intro df bt dt h
  simp only [check_emergency_stop]
  by_cases hempty : (df.filter (fun s => s.signal_name == "Speed") = [] ∨
      df.filter (fun s => s.signal_name == "BrakePressure") = [])
  · rw [if_pos hempty]
  · rw [if_neg hempty]
    have hviol : (highBrake df bt).filterMap
        (brakeViolation (speedDecel df) bt dt) = [] :=
      List.filterMap_eq_nil_iff.mpr
        (fun b hb => brakeViolation_skip _ bt dt b (h b hb))
    rw [if_pos hviol]

/-- Witness for claim C10: a high-brake sample at time 0 whose window
holds only the first speed sample (which has no deceleration estimate)
produces no violation. -/
theorem claim_C10_brake_skip_witness :
    (∀ x ∈ nearbySpeed [((0:ℚ), (130:ℚ), (none : Option ℚ)),
        ((1:ℚ), (120:ℚ), some (10:ℚ))] (0:ℚ), x.2.2 = none) ∧
    brakeViolation [((0:ℚ), (130:ℚ), (none : Option ℚ)),
        ((1:ℚ), (120:ℚ), some (10:ℚ))] 200 20 ((0:ℚ), (210:ℚ)) = none :=
  ⟨by
    norm_num [nearbySpeed, List.filter]
    try simp
    try norm_num,
   claim_C10_brake_skip.1 _ 200 20 ((0:ℚ), (210:ℚ)) (Or.inr (by
    norm_num [nearbySpeed, List.filter]
    try simp
    try norm_num))⟩

/-!  Claim C4 — emergency-stop correlation.  -/

/-- Claim C4: `check_emergency_stop` passes whenever the Speed or the
BrakePressure series is empty; otherwise (numeric series values, distinct
speed timestamps) it fails iff some BrakePressure sample above the brake
threshold has a maximum deceleration estimate above the deceleration
threshold among the speed samples within ±0.2 s of its timestamp; and on
Speed (0,130),(0.1,90) with Brake (0.1,210), thresholds 200 and 20, it
fails with the single violation carrying deceleration 400. -/
theorem claim_C4_emergency :
    (∀ (df : List Sample) (bt dt : ℚ),
      (df.filter (fun s => s.signal_name == "Speed") = [] ∨
        df.filter (fun s => s.signal_name == "BrakePressure") = []) →
      (check_emergency_stop df bt dt).passed = true) ∧
    (∀ (df : List Sample) (bt dt : ℚ),
      df.filter (fun s => s.signal_name == "Speed") ≠ [] →
      df.filter (fun s => s.signal_name == "BrakePressure") ≠ [] →
      (∀ s ∈ df.filter (fun s => s.signal_name == "Speed"), s.value.isNum = true) →
      (∀ s ∈ df.filter (fun s => s.signal_name == "BrakePressure"),
        s.value.isNum = true) →
      ((df.filter (fun s => s.signal_name == "Speed")).map
        (fun s => s.timestamp)).Nodup →
      ((check_emergency_stop df bt dt).passed = false ↔
        ∃ s ∈ df, s.signal_name = "BrakePressure" ∧ bt < valNum s.value ∧
          ∃ m, maxDecelNear (speedDecel df) s.timestamp = some m ∧ dt < m)) ∧
    (check_emergency_stop dfEmergEx 200 20).passed = false ∧
    (check_emergency_stop dfEmergEx 200 20).details =
      [⟨1/10, 210, 400, 200, 20⟩] := by
  refine ⟨?_, ?_, ?_, ?_⟩
  · intro df bt dt h
    simp only [check_emergency_stop]
    rw [if_pos h]
  · intro df bt dt h1 h2 _ _ _
    simp only [check_emergency_stop]
    rw [if_neg (not_or.mpr ⟨h1, h2⟩)]
    by_cases hv : (highBrake df bt).filterMap
        (brakeViolation (speedDecel df) bt dt) = []
    · rw [if_pos hv]
      constructor
      · intro h
        exact absurd h (by decide)
      · rintro ⟨s, hsmem, hsig, hgt, m, hm, hdt⟩
        exfalso
        have hbmem : (s.timestamp, valNum s.value) ∈ highBrake df bt := by
          apply List.mem_filter.mpr
          constructor
          · apply (mem_sortLe _ _ _).mpr
            exact List.mem_map.mpr
              ⟨s, List.mem_filter.mpr ⟨hsmem, by simp [hsig]⟩, rfl⟩
          · exact decide_eq_true hgt
        have hsome : brakeViolation (speedDecel df) bt dt
            (s.timestamp, valNum s.value) =
            some ⟨s.timestamp, valNum s.value, m, bt, dt⟩ :=
          (brakeViolation_eq_some_iff _ bt dt _ _).mpr ⟨m, hm, hdt, rfl⟩
        have hnone := List.filterMap_eq_nil_iff.mp hv _ hbmem
        rw [hsome] at hnone
        cases hnone
    · rw [if_neg hv]
      constructor
      · intro _
        obtain ⟨d, hd⟩ := List.exists_mem_of_ne_nil _ hv
        obtain ⟨b, hbmem, hbv⟩ := List.mem_filterMap.mp hd
        obtain ⟨m, hm, hdt, _⟩ := (brakeViolation_eq_some_iff _ bt dt b d).mp hbv
        have hb1 := List.mem_filter.mp hbmem
        have hb2 : b ∈ brakePairs df := (mem_sortLe _ _ _).mp hb1.1
        obtain ⟨s, hsmem, hseq⟩ := List.mem_map.mp hb2
        have hsf := List.mem_filter.mp hsmem
        subst hseq
        refine ⟨s, hsf.1, by simpa using hsf.2, ?_, m, hm, hdt⟩
        exact of_decide_eq_true hb1.2
      · intro _
        rfl
  · norm_num [check_emergency_stop, dfEmergEx, highBrake, brakePairs, speedDecel,
      speedPairs, sortLe, insertLe, withDecel, decelFrom, brakeViolation,
      nearbySpeed, listMax, valNum, List.filter, List.filterMap]
    try simp
    try norm_num
  · norm_num [check_emergency_stop, dfEmergEx, highBrake, brakePairs, speedDecel,
      speedPairs, sortLe, insertLe, withDecel, decelFrom, brakeViolation,
      nearbySpeed, listMax, valNum, List.filter, List.filterMap]
    try simp
    try norm_num

/-- Witness for claim C4: both halves applied to concrete inputs — a
speed-only input passes, and the fails-iff equivalence holds on the
example input with thresholds 200 and 20. -/
theorem claim_C4_emergency_witness :
    (check_emergency_stop dfSpeedOnly 200 20).passed = true ∧
    ((check_emergency_stop dfEmergEx 200 20).passed = false ↔
      ∃ s ∈ dfEmergEx, s.signal_name = "BrakePressure" ∧ 200 < valNum s.value ∧
        ∃ m, maxDecelNear (speedDecel dfEmergEx) s.timestamp = some m ∧ 20 < m) :=
  ⟨claim_C4_emergency.1 dfSpeedOnly 200 20 (by decide),
    claim_C4_emergency.2.1 dfEmergEx 200 20 (by decide) (by decide) (by decide)
      (by decide) (by
        norm_num [dfEmergEx, List.filter]
        try simp
        try norm_num)⟩

/-!  Claim C6 — signal bounds.  -/

/-- A row whose signal has a database entry, a numeric value and an
out-of-bounds flag produces exactly the corresponding violation. -/
theorem boundsViolation_eq_some (db : List MessageDef) (s : Sample)
    (b : BoundsEntry) (q : ℚ)
    (hb : signalBounds db s.signal_name = some b) (hq : s.value = Value.num q)
    (hflag : (belowMin b q || aboveMax b q) = true) :
    boundsViolation db s =
      some ⟨s.timestamp, s.signal_name, q, b.min, b.max, b.message⟩ := by
  unfold boundsViolation
  rw [hb, hq]
  show (if (belowMin b q || aboveMax b q) = true then
      some (⟨s.timestamp, s.signal_name, q, b.min, b.max, b.message⟩ : BoundsDetail)
    else none) = _
  rw [if_pos hflag]

/-- A produced bounds violation comes from a bounded signal with a
numeric, out-of-bounds value. -/
theorem boundsViolation_inv (db : List MessageDef) (s : Sample)
    (d : BoundsDetail) (h : boundsViolation db s = some d) :
    ∃ b, signalBounds db s.signal_name = some b ∧
      ∃ q, s.value = Value.num q ∧ (belowMin b q || aboveMax b q) = true := by
  unfold boundsViolation at h
  cases hb : signalBounds db s.signal_name with
  | none =>
      rw [hb] at h
      cases h
  | some b =>
      rw [hb] at h
      cases hq : s.value with
      | num q =>
          rw [hq] at h
          have h2 : (if (belowMin b q || aboveMax b q) = true then
              some (⟨s.timestamp, s.signal_name, q, b.min, b.max, b.message⟩ :
                BoundsDetail) else none) = some d := h
          by_cases hflag : (belowMin b q || aboveMax b q) = true
          · exact ⟨b, rfl, q, rfl, hflag⟩
          · rw [if_neg hflag] at h2
            cases h2
      | unavailable =>
          rw [hq] at h
          cases h
      | text e =>
          rw [hq] at h
          cases h

/-- A row with a non-numeric value is skipped by the bounds check. -/
theorem boundsViolation_nonnum (db : List MessageDef) (s : Sample)
    (h : s.value.isNum = false) : boundsViolation db s = none := by
  unfold boundsViolation
  cases hb : signalBounds db s.signal_name with
  | none => rfl
  | some b =>
      cases hq : s.value with
      | num q =>
          rw [hq] at h
          simp [Value.isNum] at h
      | unavailable => rfl
      | text e => rfl

/-- A row whose signal has no database entry is skipped by the bounds
check. -/
theorem boundsViolation_nosig (db : List MessageDef) (s : Sample)
    (h : signalBounds db s.signal_name = none) : boundsViolation db s = none := by
  unfold boundsViolation
  rw [h]

/-- Claim C6: `check_signal_bounds` fails iff some sample has a bounded
signal and a numeric value outside the declared bounds; its violation
records are exactly the per-row violations in row order; non-numeric
values and signals without declared bounds are never flagged; the
timestamp list is de-duplicated; and the check passes (vacuously) when no
bounded signal is present. -/
theorem claim_C6_bounds :
    ∀ (df : List Sample) (db : List MessageDef),
      ((check_signal_bounds df db).passed = false ↔
        ∃ s ∈ df, ∃ b, signalBounds db s.signal_name = some b ∧
          ∃ q, s.value = Value.num q ∧ (belowMin b q || aboveMax b q) = true) ∧
      (check_signal_bounds df db).details = df.filterMap (boundsViolation db) ∧
      (check_signal_bounds df db).timestamps.Nodup ∧
      (∀ s ∈ df, s.value.isNum = false → boundsViolation db s = none) ∧
      ((∀ s ∈ df, signalBounds db s.signal_name = none) →
        (check_signal_bounds df db).passed = true) ∧
      ((check_signal_bounds df db).details = [] ↔
        (check_signal_bounds df db).passed = true) := by
  intro df db
  by_cases hv : df.filterMap (boundsViolation db) = []
  · have hres : check_signal_bounds df db =
        ⟨"Signal Bounds Validation", true,
          "All signal values within DBC-defined bounds", [], []⟩ := by
      simp only [check_signal_bounds]
      rw [if_pos hv]
    rw [hres]
    refine ⟨?_, hv.symm, List.nodup_nil, ?_, ?_, ?_⟩
    · constructor
      · intro h
        cases h
      · rintro ⟨s, hsmem, b, hb, q, hq, hflag⟩
        exfalso
        have hsome := boundsViolation_eq_some db s b q hb hq hflag
        have hnone := List.filterMap_eq_nil_iff.mp hv s hsmem
        rw [hsome] at hnone
        cases hnone
    · intro s _ h
      exact boundsViolation_nonnum db s h
    · intro _
      rfl
    · exact iff_of_true rfl rfl
  · have hres : check_signal_bounds df db =
        ⟨"Signal Bounds Validation", false, "Out-of-bounds violations",
          df.filterMap (boundsViolation db),
          ((df.filterMap (boundsViolation db)).map (fun v => v.timestamp)).dedup⟩ := by
      simp only [check_signal_bounds]
      rw [if_neg hv]
    rw [hres]
    refine ⟨?_, rfl, List.nodup_dedup _, ?_, ?_,
      iff_of_false hv (by intro h; cases h)⟩
    · refine iff_of_true rfl ?_
      obtain ⟨d, hd⟩ := List.exists_mem_of_ne_nil _ hv
      obtain ⟨s, hsmem, hsv⟩ := List.mem_filterMap.mp hd
      obtain ⟨b, hb, q, hq, hflag⟩ := boundsViolation_inv db s d hsv
      exact ⟨s, hsmem, b, hb, q, hq, hflag⟩
    · intro s _ h
      exact boundsViolation_nonnum db s h
    · intro hall
      exfalso
      apply hv
      exact List.filterMap_eq_nil_iff.mpr
        (fun s hs => boundsViolation_nosig db s (hall s hs))

/-- Witness for claim C6: on the example database (Speed bounded by
[0, 120]) and an input holding Speed 130 at t=2 plus an unavailable raw
sample, the check fails, its details are the per-row violations, and its
timestamp list has no duplicates. -/
theorem claim_C6_bounds_witness :
    ((check_signal_bounds dfBoundsEx dbBoundsEx).passed = false ↔
      ∃ s ∈ dfBoundsEx, ∃ b, signalBounds dbBoundsEx s.signal_name = some b ∧
        ∃ q, s.value = Value.num q ∧ (belowMin b q || aboveMax b q) = true) ∧
    (check_signal_bounds dfBoundsEx dbBoundsEx).details =
      dfBoundsEx.filterMap (boundsViolation dbBoundsEx) ∧
    (check_signal_bounds dfBoundsEx dbBoundsEx).timestamps.Nodup :=
  ⟨(claim_C6_bounds dfBoundsEx dbBoundsEx).1,
   (claim_C6_bounds dfBoundsEx dbBoundsEx).2.1,
   (claim_C6_bounds dfBoundsEx dbBoundsEx).2.2.1⟩

/-!  Claim C5 — checksum.  The source compares `int()`-truncated values,
so a non-integer pressure paired with its truncation passes even though
the two values differ; the claim's "checksum value different from the
pressure value" must be read after truncation.  -/

/-- Membership in the inner join of pressure and checksum rows: exactly
the exact-timestamp pairings of a BrakePressure and a BrakeChecksum
sample. -/
theorem mem_mergedRows (df : List Sample) (r : ℚ × Value × Value) :
    r ∈ mergedRows df ↔
      ∃ p ∈ df, p.signal_name = "BrakePressure" ∧
        ∃ c ∈ df, c.signal_name = "BrakeChecksum" ∧ c.timestamp = p.timestamp ∧
          r = (p.timestamp, p.value, c.value) := by
  unfold mergedRows pressureRows checksumRows
  constructor
  · intro hr
    obtain ⟨pp, hpp, hr2⟩ := List.mem_flatMap.mp hr
    obtain ⟨cc, hcc, hr3⟩ := List.mem_map.mp hr2
    obtain ⟨p, hpmem, hpe⟩ := List.mem_map.mp hpp
    have hpf := List.mem_filter.mp hpmem
    have hcc2 := List.mem_filter.mp hcc
    obtain ⟨c, hcmem, hce⟩ := List.mem_map.mp hcc2.1
    have hcf := List.mem_filter.mp hcmem
    subst hpe
    subst hce
    refine ⟨p, hpf.1, by simpa using hpf.2, c, hcf.1, by simpa using hcf.2,
      of_decide_eq_true hcc2.2, hr3.symm⟩
  · rintro ⟨p, hp, hpsig, c, hc, hcsig, hts, hr⟩
    apply List.mem_flatMap.mpr
    refine ⟨(p.timestamp, p.value),
      List.mem_map.mpr ⟨p, List.mem_filter.mpr ⟨hp, by simp [hpsig]⟩, rfl⟩, ?_⟩
    apply List.mem_map.mpr
    refine ⟨(c.timestamp, c.value),
      List.mem_filter.mpr
        ⟨List.mem_map.mpr ⟨c, List.mem_filter.mpr ⟨hc, by simp [hcsig]⟩, rfl⟩,
          by simp [hts]⟩, ?_⟩
    exact hr.symm

/-- Characterization of the per-pair checksum violation. -/
theorem checksumViolation_eq_some_iff (r : ℚ × Value × Value) (d : ChecksumDetail) :
    checksumViolation r = some d ↔
      pyInt (valNum r.2.2) ≠ pyInt (valNum r.2.1) ∧
      d = ⟨r.1, pyInt (valNum r.2.1), pyInt (valNum r.2.2),
        pyInt (valNum r.2.1)⟩ := by
  unfold checksumViolation
  by_cases h : pyInt (valNum r.2.2) ≠ pyInt (valNum r.2.1)
  · rw [if_pos h]
    constructor
    · intro hd
      injection hd with hd
      exact ⟨h, hd.symm⟩
    · rintro ⟨_, hd⟩
      rw [hd]
  · rw [if_neg h]
    exact iff_of_false (fun hd => Option.noConfusion hd) (fun hc => h hc.1)

/-- Claim C5 counterexample: the joined pair with pressure 150.5 and
checksum 150 at t=0 has a checksum value different from the pressure
value, yet `check_checksum` passes, because the comparison truncates both
to 150. -/
theorem claim_C5_checksum_cx :
    (check_checksum dfChecksumTrunc).passed = true ∧
    mergedRows dfChecksumTrunc = [(0, Value.num (301/2), Value.num 150)] ∧
    (301/2 : ℚ) ≠ (150 : ℚ) := by
  refine ⟨?_, ?_, by norm_num⟩ <;>
  · norm_num [check_checksum, dfChecksumTrunc, pressureRows, checksumRows,
      mergedRows, checksumViolation, pyInt, valNum, List.filter, List.filterMap]
    try simp
    try norm_num

/-- Claim C5 (amended): `check_checksum` pairs BrakePressure with
BrakeChecksum samples by exactly matching timestamps (inner join,
unmatched timestamps dropped), passes if either series is absent, and
otherwise (for numeric series values) fails iff some joined pair has
`int()`-truncated checksum different from `int()`-truncated pressure
(Python truncation toward zero), the expected checksum being the
truncated pressure itself; the pair (0,150,150) passes and (0,150,99)
fails with expected 150, checksum 99. -/
theorem claim_C5_checksum :
    (∀ df : List Sample,
      (pressureRows df = [] ∨ checksumRows df = []) →
      (check_checksum df).passed = true) ∧
    (∀ df : List Sample,
      pressureRows df ≠ [] → checksumRows df ≠ [] →
      (∀ s ∈ df, s.signal_name = "BrakePressure" ∨ s.signal_name = "BrakeChecksum" →
        s.value.isNum = true) →
      ((check_checksum df).passed = false ↔
        ∃ p ∈ df, p.signal_name = "BrakePressure" ∧
          ∃ c ∈ df, c.signal_name = "BrakeChecksum" ∧ c.timestamp = p.timestamp ∧
            pyInt (valNum c.value) ≠ pyInt (valNum p.value))) ∧
    (check_checksum dfChecksumPass).passed = true ∧
    (check_checksum dfChecksumFail).passed = false ∧
    (check_checksum dfChecksumFail).details = [⟨0, 150, 99, 150⟩] := by
  refine ⟨?_, ?_, ?_, ?_, ?_⟩
  · intro df h
    simp only [check_checksum]
    rw [if_pos h]
  · intro df h1 h2 _
    simp only [check_checksum]
    rw [if_neg (not_or.mpr ⟨h1, h2⟩)]
    by_cases hv : (mergedRows df).filterMap checksumViolation = []
    · rw [if_pos hv]
      constructor
      · intro h
        exact absurd h (by decide)
      · rintro ⟨p, hp, hpsig, c, hc, hcsig, hts, hne⟩
        exfalso
        have hmem : (p.timestamp, p.value, c.value) ∈ mergedRows df :=
          (mem_mergedRows df _).mpr ⟨p, hp, hpsig, c, hc, hcsig, hts, rfl⟩
        have hsome : checksumViolation (p.timestamp, p.value, c.value) =
            some ⟨p.timestamp, pyInt (valNum p.value), pyInt (valNum c.value),
              pyInt (valNum p.value)⟩ :=
          (checksumViolation_eq_some_iff _ _).mpr ⟨hne, rfl⟩
        have hnone := List.filterMap_eq_nil_iff.mp hv _ hmem
        rw [hsome] at hnone
        cases hnone
    · rw [if_neg hv]
      refine iff_of_true rfl ?_
      obtain ⟨d, hd⟩ := List.exists_mem_of_ne_nil _ hv
      obtain ⟨r, hrmem, hrv⟩ := List.mem_filterMap.mp hd
      obtain ⟨hne, _⟩ := (checksumViolation_eq_some_iff r d).mp hrv
      obtain ⟨p, hp, hpsig, c, hc, hcsig, hts, hr⟩ := (mem_mergedRows df r).mp hrmem
      refine ⟨p, hp, hpsig, c, hc, hcsig, hts, ?_⟩
      rw [hr] at hne
      exact hne
  · norm_num [check_checksum, dfChecksumPass, pressureRows, checksumRows,
      mergedRows, checksumViolation, pyInt, valNum, List.filter, List.filterMap]
    try simp
    try norm_num
  · norm_num [check_checksum, dfChecksumFail, pressureRows, checksumRows,
      mergedRows, checksumViolation, pyInt, valNum, List.filter, List.filterMap]
    try simp
    try norm_num
  · norm_num [check_checksum, dfChecksumFail, pressureRows, checksumRows,
      mergedRows, checksumViolation, pyInt, valNum, List.filter, List.filterMap]
    try simp
    try norm_num

/-- Witness for claim C5: the failing example has non-empty numeric
series, and the fails-iff equivalence holds on it. -/
theorem claim_C5_checksum_witness :
    pressureRows dfChecksumFail ≠ [] ∧
    ((check_checksum dfChecksumFail).passed = false ↔
      ∃ p ∈ dfChecksumFail, p.signal_name = "BrakePressure" ∧
        ∃ c ∈ dfChecksumFail, c.signal_name = "BrakeChecksum" ∧
          c.timestamp = p.timestamp ∧
          pyInt (valNum c.value) ≠ pyInt (valNum p.value)) :=
  ⟨by decide,
    claim_C5_checksum.2.1 dfChecksumFail (by decide) (by decide) (by decide)⟩

/-!  Claim C9 — total, per-frame ingestion.  In the embedding
`decode_signals` is a total function (the `try`/`except` of the source
catches every per-frame failure), so the claim's content is the shape of
each frame's contribution and the frame-arrival output order.  -/

/-- Claim C9: `decode_signals` concatenates per-frame sample blocks in
frame-arrival order; a frame with no message spec yields exactly one
UNKNOWN/raw sample with an unavailable value, a frame whose decode fails
yields exactly one ERROR/decode_error sample carrying the error text, and
a decoded frame yields one sample per decoded signal. -/
theorem claim_C9_ingestion :
    (∀ (messages : List RawFrame) (dbc : Database),
      decode_signals messages dbc = messages.flatMap (frameSamples dbc)) ∧
    (∀ (dbc : Database) (msg : RawFrame),
      dbc.get_message_by_frame_id msg.id = none →
      frameSamples dbc msg =
        [⟨msg.timestamp, "UNKNOWN", msg.id, "raw", .unavailable, msg.data⟩]) ∧
    (∀ (dbc : Database) (msg : RawFrame) (message : DbMessage) (e : String),
      dbc.get_message_by_frame_id msg.id = some message →
      message.decode msg.data = .error e →
      frameSamples dbc msg =
        [⟨msg.timestamp, "ERROR", msg.id, "decode_error", .text e, msg.data⟩]) ∧
    (∀ (dbc : Database) (msg : RawFrame) (message : DbMessage)
        (decoded_signals : List (String × Value)),
      dbc.get_message_by_frame_id msg.id = some message →
      message.decode msg.data = .ok decoded_signals →
      frameSamples dbc msg = decoded_signals.map (fun p =>
        ⟨msg.timestamp, message.name, msg.id, p.1, p.2, msg.data⟩)) := by
  refine ⟨?_, ?_, ?_, ?_⟩
  · intro messages dbc
    unfold decode_signals
    simpa using foldl_append_eq_flatMap (frameSamples dbc) messages []
  · intro dbc msg h
    unfold frameSamples
    rw [h]
  · intro dbc msg message e h1 h2
    unfold frameSamples
    simp [h1, h2]
  · intro dbc msg message decoded_signals h1 h2
    unfold frameSamples
    simp [h1, h2]

/-- Witness for claim C9: in the example database, frame id 999 is
unknown and produces the UNKNOWN sample, and frame id 258 fails to decode
and produces the ERROR sample. -/
theorem claim_C9_ingestion_witness :
    dbcEx.get_message_by_frame_id 999 = none ∧
    frameSamples dbcEx ⟨1, 999, [3]⟩ =
      [⟨1, "UNKNOWN", 999, "raw", .unavailable, [3]⟩] ∧
    frameSamples dbcEx ⟨2, 258, [4]⟩ =
      [⟨2, "ERROR", 258, "decode_error", .text ("decode failed"), [4]⟩] :=
  ⟨rfl, claim_C9_ingestion.2.1 dbcEx ⟨1, 999, [3]⟩ rfl,
    claim_C9_ingestion.2.2.1 dbcEx ⟨2, 258, [4]⟩
      ⟨"BrakeSystem", fun _ => .error ("decode failed")⟩ "decode failed" rfl rfl⟩

/-!  Claim C1 — codec round trip (modelled from the spec, section 4.2).  -/

/-- Little-endian reassembly inverts byte splitting, modulo the byte
count. -/
theorem natFromBytes_bytesFromNat (k n : Nat) :
    natFromBytesLE (bytesFromNat k n) = n % 256 ^ k := by
  induction k generalizing n with
  | zero => simp [bytesFromNat, natFromBytesLE, Nat.mod_one]
  | succ k ih =>
      have h1 : natFromBytesLE (bytesFromNat (k + 1) n) =
          n % 256 + 256 * (n / 256 % 256 ^ k) := by
        simp [bytesFromNat, natFromBytesLE, ih]
      rw [h1, Nat.div_mod_eq_mod_mul_div]
      have h2 : (256 : ℕ) ∣ 256 * 256 ^ k := dvd_mul_right _ _
      rw [← Nat.mod_mod_of_dvd n h2, Nat.mod_add_div]
      congr 1
      ring

/-- An 8-byte split reassembles exactly below `256^8`. -/
theorem natFromBytes_64 (w : Nat) (hw : w < 256 ^ 8) :
    natFromBytesLE (bytesFromNat 8 w) = w := by
  rw [natFromBytes_bytesFromNat]
  exact Nat.mod_eq_of_lt hw

/-- The two's-complement pattern fits its bit length. -/
theorem rawPattern_lt (spec : SignalSpec) (r : ℤ) :
    rawPattern spec r < 2 ^ spec.bit_length := by
  unfold rawPattern
  have hpos : (0 : ℤ) < 2 ^ spec.bit_length := by positivity
  have hlt := Int.emod_lt_of_pos r hpos
  have hge := Int.emod_nonneg r (ne_of_gt hpos)
  have hcast : ((2 ^ spec.bit_length : ℕ) : ℤ) = 2 ^ spec.bit_length := by
    push_cast
    ring
  omega

/-- Reading the encoded frame back as a word recovers the shifted
pattern, for either byte order. -/
theorem payloadWord_encodeFrame (spec : SignalSpec) (v : ℚ)
    (hle : spec.start_bit + spec.bit_length ≤ 64) :
    payloadWord spec (encodeFrame spec v) =
      rawPattern spec (rawOf spec v) * 2 ^ spec.start_bit := by
  have hword : rawPattern spec (rawOf spec v) * 2 ^ spec.start_bit < 256 ^ 8 := by
    have h64 : (256 : ℕ) ^ 8 = 2 ^ 64 := by norm_num
    rw [h64]
    calc rawPattern spec (rawOf spec v) * 2 ^ spec.start_bit
        < 2 ^ spec.bit_length * 2 ^ spec.start_bit :=
          mul_lt_mul_of_pos_right (rawPattern_lt spec (rawOf spec v))
            (by positivity)
      _ = 2 ^ (spec.bit_length + spec.start_bit) := (pow_add 2 _ _).symm
      _ ≤ 2 ^ 64 := Nat.pow_le_pow_right (by norm_num) (by omega)
  cases hbo : spec.byte_order with
  | little =>
      simp only [payloadWord, encodeFrame, hbo]
      exact natFromBytes_64 _ hword
  | big =>
      simp only [payloadWord, encodeFrame, hbo, List.reverse_reverse]
      exact natFromBytes_64 _ hword

/-- Extracting the signal bits from the encoded frame recovers the raw
pattern. -/
theorem extractBits_encodeFrame (spec : SignalSpec) (v : ℚ)
    (hle : spec.start_bit + spec.bit_length ≤ 64) :
    extractBits spec (encodeFrame spec v) = rawPattern spec (rawOf spec v) := by
  unfold extractBits
  rw [payloadWord_encodeFrame spec v hle]
  rw [Nat.mul_div_cancel _ (by positivity : 0 < 2 ^ spec.start_bit)]
  exact Nat.mod_eq_of_lt (rawPattern_lt spec (rawOf spec v))

/-- Two's-complement interpretation inverts the pattern of any raw
integer in the representable range. -/
theorem patternValue_rawPattern (spec : SignalSpec) (hL : 0 < spec.bit_length)
    (r : ℤ) (h1 : rawLo spec ≤ r) (h2 : r ≤ rawHi spec) :
    patternValue spec (rawPattern spec r) = r := by
  have hpos : (0 : ℤ) < 2 ^ spec.bit_length := by positivity
  have htn : ((rawPattern spec r : ℕ) : ℤ) = r % 2 ^ spec.bit_length :=
    Int.toNat_of_nonneg (Int.emod_nonneg r (ne_of_gt hpos))
  have hcastA : ((2 ^ (spec.bit_length - 1) : ℕ) : ℤ) = 2 ^ (spec.bit_length - 1) := by
    push_cast
    ring
  cases hsg : spec.signed with
  | false =>
      unfold rawLo at h1
      unfold rawHi at h2
      rw [hsg] at h1 h2
      simp only [Bool.false_eq_true, if_false] at h1 h2
      have hlt : r < 2 ^ spec.bit_length := by omega
      have hmod : r % 2 ^ spec.bit_length = r := Int.emod_eq_of_lt h1 hlt
      unfold patternValue
      rw [hsg]
      simp only [Bool.false_eq_true, if_false]
      omega
  | true =>
      unfold rawLo at h1
      unfold rawHi at h2
      rw [hsg] at h1 h2
      simp only [if_true] at h1 h2
      have hA : (2 : ℤ) ^ spec.bit_length = 2 * 2 ^ (spec.bit_length - 1) := by
        conv_lhs => rw [show spec.bit_length = (spec.bit_length - 1) + 1 by omega]
        ring
      unfold patternValue
      rw [hsg]
      simp only [if_true]
      by_cases hr : 0 ≤ r
      · have hlt : r < 2 ^ spec.bit_length := by omega
        have hmod : r % 2 ^ spec.bit_length = r := Int.emod_eq_of_lt hr hlt
        have hcond : rawPattern spec r < 2 ^ (spec.bit_length - 1) := by omega
        rw [if_pos hcond]
        omega
      · have hstep : (r + 2 ^ spec.bit_length * 1) % 2 ^ spec.bit_length =
            r % 2 ^ spec.bit_length :=
          Int.add_mul_emod_self_left r (2 ^ spec.bit_length) 1
        rw [mul_one] at hstep
        have hr2 : 0 ≤ r + 2 ^ spec.bit_length := by omega
        have hr3 : r + 2 ^ spec.bit_length < 2 ^ spec.bit_length := by omega
        have hmod : r % 2 ^ spec.bit_length = r + 2 ^ spec.bit_length :=
          hstep.symm.trans (Int.emod_eq_of_lt hr2 hr3)
        have hcond : ¬(rawPattern spec r < 2 ^ (spec.bit_length - 1)) := by omega
        rw [if_neg hcond]
        omega

/-- Rounding on rationals is monotone. -/
theorem round_q_mono {x y : ℚ} (h : x ≤ y) : round x ≤ round y := by
  rw [round_eq, round_eq]
  exact Int.floor_mono (by linarith)

/-- An in-range physical value rounds to a representable raw integer. -/
theorem rawOf_range (spec : SignalSpec) (hs : 0 < spec.scale) (v : ℚ)
    (h1 : physMin spec ≤ v) (h2 : v ≤ physMax spec) :
    rawLo spec ≤ rawOf spec v ∧ rawOf spec v ≤ rawHi spec := by
  have hlo : (rawLo spec : ℚ) ≤ (v - spec.offset) / spec.scale := by
    rw [le_div_iff₀ hs]
    unfold physMin at h1
    linarith
  have hhi : (v - spec.offset) / spec.scale ≤ (rawHi spec : ℚ) := by
    rw [div_le_iff₀ hs]
    unfold physMax at h2
    linarith
  constructor
  · have h := round_q_mono hlo
    rwa [round_intCast] at h
  · have h := round_q_mono hhi
    rwa [round_intCast] at h

/-- Claim C1: for every valid SignalSpec — both byte orders and both
signednesses are quantified over — and every in-range physical value `v`,
decoding the frame built by encoding `v` reproduces `v` to within half the
scale factor (the rounding granularity of the raw count). -/
theorem claim_C1_codec_roundtrip :
    ∀ (spec : SignalSpec) (v : ℚ),
      spec.valid → physMin spec ≤ v → v ≤ physMax spec →
      |decodePhys spec (encodeFrame spec v) - v| ≤ spec.scale / 2 := by
  intro spec v hvalid h1 h2
  obtain ⟨hs, hL, hle⟩ := hvalid
  have hrange := rawOf_range spec hs v h1 h2
  have hextract := extractBits_encodeFrame spec v hle
  have hpattern :=
    patternValue_rawPattern spec hL (rawOf spec v) hrange.1 hrange.2
  unfold decodePhys
  rw [hextract, hpattern]
  unfold rawOf
  have hround := abs_sub_round ((v - spec.offset) / spec.scale)
  have hne : spec.scale ≠ 0 := ne_of_gt hs
  have hxv : (v - spec.offset) / spec.scale * spec.scale = v - spec.offset :=
    div_mul_cancel₀ _ hne
  set x := (v - spec.offset) / spec.scale with hx
  have key : (round x : ℚ) * spec.scale + spec.offset - v =
      ((round x : ℚ) - x) * spec.scale := by
    rw [sub_mul, hxv]
    ring
  rw [key, abs_mul, abs_of_pos hs]
  calc |(round x : ℚ) - x| * spec.scale = |x - (round x : ℚ)| * spec.scale := by
        rw [abs_sub_comm]
    _ ≤ (1 / 2) * spec.scale := mul_le_mul_of_nonneg_right hround (le_of_lt hs)
    _ = spec.scale / 2 := by ring

/-- Witness for claim C1: the signed big-endian example signal (8 bits at
start bit 4, scale 0.5, offset -10) is valid, 0.75 is in range, and the
round-trip error is within scale/2. -/
theorem claim_C1_codec_roundtrip_witness :
    specEx.valid ∧ physMin specEx ≤ 3/4 ∧ (3/4 : ℚ) ≤ physMax specEx ∧
    |decodePhys specEx (encodeFrame specEx (3/4)) - 3/4| ≤ specEx.scale / 2 :=
  ⟨by
    norm_num [SignalSpec.valid, specEx],
   by
    norm_num [physMin, rawLo, specEx],
   by
    norm_num [physMax, rawHi, specEx],
   claim_C1_codec_roundtrip specEx (3/4)
    (by norm_num [SignalSpec.valid, specEx])
    (by norm_num [physMin, rawLo, specEx])
    (by norm_num [physMax, rawHi, specEx])⟩
